import Mathlib

/-!
Verification of the bernard intent- and stack-matching engine.

The development shallowly embeds the matching code of the repository:

* `src/bernard/engine/triggers.py` — the `Text` and `Choice` triggers
  (methods `Text.rank`, `Choice._rank_qr`, `Choice._rank_text`,
  `Choice.rank`), translated as functions over an explicit `Request`
  record.  Exceptions (`KeyError`) are modelled with `Except String`.
* `src/bernard/platforms/facebook/platform.py` — `Facebook.accept` and
  `Facebook.send`, translated as functions over an explicit `Stack`
  record that carries the result of the unseen `Stack.match_exp`
  pattern matcher as an abstract boolean function.

The fuzzy string matcher (`bernard.trigram`, not part of the given
sources) is modelled from the specification: length-3 shingles over a
case-folded, boundary-padded string, multiset Dice similarity, and a
best-of-candidates matcher.  Scores are rationals.
-/

namespace Bernard

/-- Modelled from the spec: length-3 windows of a character list, the
shingle multiset underlying `bernard.trigram.Trigram` (the module is
not under the given sources).  Represented as a list used as a
multiset. -/
def windows3 : List Char → List (List Char)
  | a :: b :: c :: rest => [a, b, c] :: windows3 (b :: c :: rest)
  | _ => []

/-- Modelled from the spec: the `Trigram` value of a string — shingles
of the case-folded string padded at the boundaries, so that even the
empty string yields one shingle. -/
def Trigram (s : String) : List (List Char) :=
  windows3 (' ' :: ' ' :: (s.data.map Char.toLower ++ [' ']))

/-- Multiset intersection size of two shingle lists. -/
def interCount (a b : List (List Char)) : Nat :=
  Multiset.card ((a : Multiset (List Char)) ∩ (b : Multiset (List Char)))

/-- Modelled from the spec: multiset Dice similarity
`2 * card (a inter b) / (card a + card b)`, and `0` when both are
empty. -/
def similarity (a b : List (List Char)) : ℚ :=
  if a.length + b.length = 0 then 0
  else 2 * (interCount a b : ℚ) / ((a.length : ℚ) + (b.length : ℚ))

/-- Modelled from the spec: the score of `Matcher(candidates) %
query` — the best similarity of the query trigram against any
candidate trigram, `0` for an empty candidate list. -/
def matcherScore (cands : List (List (List Char))) (query : List (List Char)) : ℚ :=
  cands.foldl (fun best c => max best (similarity c query)) 0

/-- Modelled from the spec (§4.2 Candidate Matcher): best similarity
score of a query string against a list of candidate strings, `0` for
the empty list. -/
def best_match (query : String) (cands : List String) : ℚ :=
  cands.foldl (fun best c => max best (similarity (Trigram query) (Trigram c))) 0

/-- The metadata mapping of one choice, as read from the transition
register: a finite mapping from string keys (such as "intent" and
"text") to optional string values, in insertion order. -/
abbrev ChoiceParams := List (String × Option String)

/-- Python truthiness of an `Optional[str]` value: `None` and the
empty string are falsy. -/
def truthy : Option String → Bool
  | none => false
  | some s => s != ""

/-- The decoded inbound request, restricted to what the triggers read:
the payload of a `RawText` layer if one is present, the slug of a
`QuickReply` layer if one is present, and the pending-choices mapping
read from the transition register (`none` when the register holds no
"choices" entry). -/
structure Request where
  rawText : Option String
  quickReply : Option String
  transChoices : Option (List (String × ChoiceParams))

/-- The external i18n collaborators, as interfaces: `intentStrings`
stands for `getattr(intents, name).strings(request)` and `render` for
`bernard.i18n.render(text, request)`; both are out of scope per the
spec and treated as opaque inputs. -/
structure Env where
  intentStrings : String → List String
  render : String → String

/-- Translation of the candidate-string construction in
`Choice._rank_text` (triggers.py lines 118-127): look up the "intent"
key (a missing key is a `KeyError`), add the intent strings when the
value is truthy, look up the "text" key (a missing key is a
`KeyError`), add the literal text when truthy. -/
def choiceStrings (env : Env) (params : ChoiceParams) : Except String (List String) :=
  match params.lookup "intent" with
  | none => Except.error "KeyError: intent"
  | some iv =>
    let strs1 := if truthy iv then env.intentStrings (iv.getD "") else []
    match params.lookup "text" with
    | none => Except.error "KeyError: text"
    | some tv =>
      let strs2 := if truthy tv then [tv.getD ""] else []
      Except.ok (strs1 ++ strs2)

/-- Translation of the scoring loop of `Choice._rank_text` (triggers.py
lines 115-133): fold over the choices in mapping order, carrying the
best score (initially `0`) and the slug of the choice that last
strictly improved it (initially `none`). -/
def rank_text_go (env : Env) (query : String) :
    List (String × ChoiceParams) → ℚ → Option String →
    Except String (ℚ × Option String)
  | [], best, slug => Except.ok (best, slug)
  | (slug2, params) :: rest, best, slug =>
    match choiceStrings env params with
    | Except.error e => Except.error e
    | Except.ok strs =>
      let score := matcherScore (strs.map Trigram) (Trigram (env.render query))
      if best < score then rank_text_go env query rest score (some slug2)
      else rank_text_go env query rest best slug

/-- Translation of `Choice._rank_text` (triggers.py lines 109-136):
score every choice against the rendered raw text, then return the best
score when `when` is unset or equal to the kept slug, and `None`
(`NoOpinion`) otherwise. -/
def rank_text (env : Env) (req : Request) (when : Option String)
    (choices : List (String × ChoiceParams)) : Except String (Option ℚ) :=
  match req.rawText with
  | none => Except.error "KeyError: RawText"
  | some t =>
    match rank_text_go env t choices 0 none with
    | Except.error e => Except.error e
    | Except.ok (best, slug) =>
      if when = none ∨ slug = when then Except.ok (some best) else Except.ok none

/-- The candidate string list of one choice as the specification
describes it: the intent strings of a truthy intent reference plus the
literal text when truthy.  This is the total counterpart of
`choiceStrings`, used to state properties; it agrees with
`choiceStrings` whenever both metadata keys are present. -/
def candidatesOf (env : Env) (params : ChoiceParams) : List String :=
  (match params.lookup "intent" with
   | some v => if truthy v then env.intentStrings (v.getD "") else []
   | none => []) ++
  (match params.lookup "text" with
   | some v => if truthy v then [v.getD ""] else []
   | none => [])

/-- The score the specification assigns to one choice: `best_match` of
the rendered raw text against the candidate list of the choice. -/
def scoreOf (env : Env) (query : String) (params : ChoiceParams) : ℚ :=
  best_match (env.render query) (candidatesOf env params)

/-- Translation of `Choice._rank_qr` (triggers.py lines 94-107): look
the quick-reply slug up in the choices; a missing slug is a `KeyError`
caught by the surrounding `try`, yielding `None`; a found slug yields
`1.0` when `when` is unset or equal to it, `None` otherwise. -/
def rank_qr (req : Request) (when : Option String)
    (choices : List (String × ChoiceParams)) : Option ℚ :=
  match req.quickReply with
  | none => none
  | some slug =>
    match choices.lookup slug with
    | none => none
    | some _ => if when = none ∨ when = some slug then some 1 else none

/-- Translation of `Choice.rank` (triggers.py lines 139-155): read the
choices from the transition register; a falsy mapping (absent or
empty) yields `None`; a quick-reply layer routes to `_rank_qr`,
otherwise a raw-text layer routes to `_rank_text`, otherwise `None`. -/
def Choice.rank (env : Env) (req : Request) (when : Option String) :
    Except String (Option ℚ) :=
  match req.transChoices with
  | none => Except.ok none
  | some choices =>
    if choices.isEmpty then Except.ok none
    else if req.quickReply.isSome then Except.ok (rank_qr req when choices)
    else if req.rawText.isSome then rank_text env req when choices
    else Except.ok none

/-- Translation of `Text.rank` (triggers.py lines 58-72): `None` when
the request has no raw-text layer, otherwise the matcher score of the
raw text against the locale-resolved strings of the configured intent
(`intentStrs` stands for `self.intent.strings(self.request)`). -/
def Text.rank (intentStrs : List String) (req : Request) : Option ℚ :=
  match req.rawText with
  | none => none
  | some t => some (matcherScore (intentStrs.map Trigram) (Trigram t))

/-- The outgoing message stack, restricted to what `Facebook.accept`
and `Facebook.send` touch: its `annotation` attribute (here `annot`,
`none` until a pattern name has been attached) and the behaviour of
the unseen `Stack.match_exp` pattern matcher on it, abstracted as a
boolean function of the pattern expression. -/
structure Stack where
  annot : Option String
  match_exp : String → Bool

/-- The `Facebook.PATTERNS` registry (platform.py lines 107-109), in
registration order. -/
def PATTERNS : List (String × String) :=
  [("text", "(Text|RawText)+ QuickRepliesList?")]

/-- The loop of `Facebook.accept` over a pattern registry: at the
first pattern the stack matches, attach its name and return `true`;
otherwise return `false` with the stack untouched. -/
def acceptAux (s : Stack) : List (String × String) → Stack × Bool
  | [] => (s, false)
  | (name, pat) :: rest =>
    if s.match_exp pat then ({ s with annot := some name }, true)
    else acceptAux s rest

/-- Translation of `Facebook.accept` (platform.py lines 122-134),
threading the mutation of the `annotation` attribute explicitly. -/
def accept (s : Stack) : Stack × Bool :=
  acceptAux s PATTERNS

/-- The raised `UnacceptableStack` exception of `Facebook.send`. -/
structure UnacceptableStack where
  msg : String

/-- Does the `annotation` attribute hold a key of `PATTERNS`?  This is
the negation of the guard `stack.annotation not in self.PATTERNS` of
`Facebook.send`; a `None` attribute is not a key. -/
def annotRegistered (s : Stack) : Bool :=
  match s.annot with
  | some n => (PATTERNS.lookup n).isSome
  | none => false

/-- Translation of `Facebook.send` (platform.py lines 136-149): when
the annotation is not a registered pattern name, run `accept` and
raise `UnacceptableStack` when it refuses; otherwise dispatch to the
handler named `_send_` plus the (possibly just attached) annotation,
returned here as the handler name together with the final stack. -/
def send (s : Stack) : Except UnacceptableStack (String × Stack) :=
  match
    (if annotRegistered s then Except.ok s
     else
       match accept s with
       | (s2, true) => Except.ok s2
       | (_, false) => Except.error ⟨"Cannot accept stack"⟩ :
     Except UnacceptableStack Stack) with
  | Except.error e => Except.error e
  | Except.ok s2 => Except.ok ("_send_" ++ s2.annot.getD "", s2)

/-! ### Helper lemmas about the similarity model -/

lemma interCount_comm (a b : List (List Char)) : interCount a b = interCount b a := by
  unfold interCount
  rw [Multiset.inter_comm]

lemma similarity_comm (a b : List (List Char)) : similarity a b = similarity b a := by
  unfold similarity
  rw [interCount_comm, Nat.add_comm a.length b.length, add_comm (a.length : ℚ) (b.length : ℚ)]

lemma similarity_nonneg (a b : List (List Char)) : 0 ≤ similarity a b := by
  unfold similarity
  split
  · exact le_refl 0
  · apply div_nonneg
    · positivity
    · positivity

lemma le_foldl_max (f : α → ℚ) :
    ∀ (l : List α) (b : ℚ), b ≤ List.foldl (fun x c => max x (f c)) b l := by
  intro l
  induction l with
  | nil => intro b; exact le_refl b
  | cons c l ih =>
    intro b
    exact le_trans (le_max_left b (f c)) (ih (max b (f c)))

lemma foldl_max_of_mem (f : α → ℚ) :
    ∀ (l : List α) (b : ℚ) (c : α), c ∈ l →
      f c ≤ List.foldl (fun x d => max x (f d)) b l := by
  intro l
  induction l with
  | nil => intro b c hc; cases hc
  | cons d l ih =>
    intro b c hc
    rcases List.mem_cons.mp hc with h | h
    · subst h
      exact le_trans (le_max_right b (f c)) (le_foldl_max f l (max b (f c)))
    · exact ih (max b (f d)) c h

lemma foldl_max_cases (f : α → ℚ) :
    ∀ (l : List α) (b : ℚ),
      List.foldl (fun x d => max x (f d)) b l = b ∨
      ∃ c ∈ l, f c = List.foldl (fun x d => max x (f d)) b l := by
  intro l
  induction l with
  | nil => intro b; exact Or.inl rfl
  | cons d l ih =>
    intro b
    rcases ih (max b (f d)) with h | ⟨c, hc, hfc⟩
    · rcases max_cases b (f d) with ⟨hm, _⟩ | ⟨hm, _⟩
      · exact Or.inl (by rw [List.foldl_cons, h, hm])
      · exact Or.inr ⟨d, List.mem_cons_self d l, by rw [List.foldl_cons, h, hm]⟩
    · exact Or.inr ⟨c, List.mem_cons_of_mem d hc, hfc⟩

lemma foldl_max_map (g : β → α) (f : α → ℚ) :
    ∀ (l : List β) (b : ℚ),
      List.foldl (fun x c => max x (f c)) b (l.map g) =
      List.foldl (fun x c => max x (f (g c))) b l := by
  intro l
  induction l with
  | nil => intro b; rfl
  | cons c l ih => intro b; simp only [List.map_cons, List.foldl_cons]; exact ih _

lemma matcherScore_eq_best_match (q : String) (strs : List String) :
    matcherScore (strs.map Trigram) (Trigram q) = best_match q strs := by
  unfold matcherScore best_match
  rw [foldl_max_map Trigram (fun c => similarity c (Trigram q)) strs 0]
  exact List.foldl_ext _ _ 0 (fun a s _ => by rw [similarity_comm])

lemma best_match_nonneg (q : String) (strs : List String) : 0 ≤ best_match q strs :=
  le_foldl_max _ strs 0

/-! ### Claims about the triggers -/

/-- Claim C3: the `Text` trigger returns `NoOpinion` when the request
has no raw-text token; when a raw-text token is present, `Text.rank`
returns exactly the best-match similarity score of the raw text
against the locale-resolved strings of its configured intent. -/
theorem text_rank_c3 (intentStrs : List String) (req : Request) :
    (req.rawText = none → Text.rank intentStrs req = none) ∧
    (∀ t, req.rawText = some t →
      Text.rank intentStrs req = some (best_match t intentStrs)) := by
  constructor
  · intro h
    simp only [Text.rank, h]
  · intro t h
    simp only [Text.rank, h]
    rw [matcherScore_eq_best_match]

theorem text_rank_c3_witness :
    Text.rank ["hello"] ⟨none, none, none⟩ = none ∧
    Text.rank ["hello"] ⟨some "hello there", none, none⟩ =
      some (best_match "hello there" ["hello"]) :=
  ⟨(text_rank_c3 ["hello"] ⟨none, none, none⟩).1 rfl,
   (text_rank_c3 ["hello"] ⟨some "hello there", none, none⟩).2 "hello there" rfl⟩

/-- Claim C1: on a request carrying a quick-reply token whose slug is a
key of the non-empty pending-choices mapping, `Choice.rank` returns
`1.0` when `when` is unset or equal to that slug, and `NoOpinion` when
`when` is set to a different slug.  The raw-text component of the
request is left entirely unconstrained, so the quick-reply branch is
taken whether or not a raw-text token is also present. -/
theorem choice_rank_qr_c1 (env : Env) (req : Request) (when : Option String)
    (choices : List (String × ChoiceParams)) (slug : String)
    (hqr : req.quickReply = some slug)
    (hc : req.transChoices = some choices) (hne : choices ≠ [])
    (hmem : (choices.lookup slug).isSome = true) :
    ((when = none ∨ when = some slug) →
      Choice.rank env req when = Except.ok (some 1)) ∧
    (∀ w, when = some w → w ≠ slug →
      Choice.rank env req when = Except.ok none) := by
  rcases Option.isSome_iff_exists.mp hmem with ⟨params, hlook⟩
  have hEmpty : choices.isEmpty = false := by
    simp [List.isEmpty_iff, hne]
  have hrank : Choice.rank env req when =
      Except.ok (if when = none ∨ when = some slug then some 1 else none) := by
    simp only [Choice.rank, hc, hEmpty, hqr, rank_qr, hlook, Option.isSome_some,
      Bool.false_eq_true, if_false, if_true]
  constructor
  · intro hw
    rw [hrank, if_pos hw]
  · intro w hw hne2
    rw [hrank, if_neg]
    rintro (h | h)
    · rw [hw] at h; cases h
    · rw [hw] at h
      exact hne2 (Option.some_injective _ h)

theorem choice_rank_qr_c1_witness :
    (Choice.rank ⟨fun _ => [], id⟩
      ⟨some "raw words", some "no", some [("no", [("intent", none), ("text", some "No")])]⟩
      none = Except.ok (some 1)) ∧
    (Choice.rank ⟨fun _ => [], id⟩
      ⟨some "raw words", some "no", some [("no", [("intent", none), ("text", some "No")])]⟩
      (some "yes") = Except.ok none) :=
  ⟨(choice_rank_qr_c1 ⟨fun _ => [], id⟩
      ⟨some "raw words", some "no", some [("no", [("intent", none), ("text", some "No")])]⟩
      none _ "no" rfl rfl (by decide) rfl).1 (Or.inl rfl),
   (choice_rank_qr_c1 ⟨fun _ => [], id⟩
      ⟨some "raw words", some "no", some [("no", [("intent", none), ("text", some "No")])]⟩
      (some "yes") _ "no" rfl rfl (by decide) rfl).2 "yes" rfl (by decide)⟩

/-- Claim C6: when the pending-choices mapping read from the
transition register is absent or empty, `Choice.rank` returns
`NoOpinion` (`None`), never the score `0.0`. -/
theorem choice_rank_empty_c6 (env : Env) (req : Request) (when : Option String)
    (h : req.transChoices = none ∨ req.transChoices = some []) :
    Choice.rank env req when = Except.ok none ∧
    Choice.rank env req when ≠ Except.ok (some 0) := by
  have hok : Choice.rank env req when = Except.ok none := by
    rcases h with h | h
    · unfold Choice.rank
      rw [h]
    · unfold Choice.rank
      rw [h]
      rfl
  exact ⟨hok, by rw [hok]; intro hbad; simp at hbad⟩

theorem choice_rank_empty_c6_witness :
    (Choice.rank ⟨fun _ => [], id⟩ ⟨some "hi", none, none⟩ none = Except.ok none ∧
      Choice.rank ⟨fun _ => [], id⟩ ⟨some "hi", none, none⟩ none ≠ Except.ok (some 0)) ∧
    (Choice.rank ⟨fun _ => [], id⟩ ⟨some "hi", none, some []⟩ none = Except.ok none ∧
      Choice.rank ⟨fun _ => [], id⟩ ⟨some "hi", none, some []⟩ none ≠ Except.ok (some 0)) :=
  ⟨choice_rank_empty_c6 ⟨fun _ => [], id⟩ ⟨some "hi", none, none⟩ none (Or.inl rfl),
   choice_rank_empty_c6 ⟨fun _ => [], id⟩ ⟨some "hi", none, some []⟩ none (Or.inr rfl)⟩

/-- Claim C7: on a request carrying neither a quick-reply token nor a
raw-text token, both `Text.rank` and `Choice.rank` return
`NoOpinion`. -/
theorem no_layer_c7 (env : Env) (req : Request) (when : Option String)
    (intentStrs : List String)
    (hq : req.quickReply = none) (ht : req.rawText = none) :
    Text.rank intentStrs req = none ∧
    Choice.rank env req when = Except.ok none := by
  constructor
  · simp only [Text.rank, ht]
  · unfold Choice.rank
    rcases hc : req.transChoices with _ | choices
    · rfl
    · rw [hq, ht]
      simp

theorem no_layer_c7_witness :
    Text.rank ["hello"] ⟨none, none, some [("a", [("intent", none), ("text", none)])]⟩ = none ∧
    Choice.rank ⟨fun _ => [], id⟩
      ⟨none, none, some [("a", [("intent", none), ("text", none)])]⟩ none = Except.ok none :=
  no_layer_c7 ⟨fun _ => [], id⟩
    ⟨none, none, some [("a", [("intent", none), ("text", none)])]⟩ none ["hello"] rfl rfl

/-- Claim C8: on a request carrying a quick-reply token whose slug is
not a key of the non-empty pending-choices mapping, `Choice.rank`
returns `NoOpinion` and never falls back to raw-text choice matching:
the result is `None` whatever the raw-text component of the request
holds. -/
theorem choice_rank_qr_unknown_c8 (env : Env) (req : Request) (when : Option String)
    (choices : List (String × ChoiceParams)) (slug : String)
    (hqr : req.quickReply = some slug)
    (hc : req.transChoices = some choices) (hne : choices ≠ [])
    (hmiss : choices.lookup slug = none) :
    Choice.rank env req when = Except.ok none := by
  have hEmpty : choices.isEmpty = false := by
    simp [List.isEmpty_iff, hne]
  simp only [Choice.rank, hc, hEmpty, hqr, rank_qr, hmiss, Option.isSome_some,
    Bool.false_eq_true, if_false, if_true]

theorem choice_rank_qr_unknown_c8_witness :
    Choice.rank ⟨fun _ => [], id⟩
      ⟨some "yes please", some "maybe", some [("no", [("intent", none), ("text", some "No")])]⟩
      none = Except.ok none :=
  choice_rank_qr_unknown_c8 ⟨fun _ => [], id⟩
    ⟨some "yes please", some "maybe", some [("no", [("intent", none), ("text", some "No")])]⟩
    none _ "maybe" rfl rfl (by decide) (by decide)

/-! ### Helper lemmas about accept -/

lemma acceptAux_eq_find (s : Stack) :
    ∀ l : List (String × String), acceptAux s l =
      match l.find? (fun nv => s.match_exp nv.2) with
      | some nv => ({ s with annot := some nv.1 }, true)
      | none => (s, false) := by
  intro l
  induction l with
  | nil => rfl
  | cons nv rest ih =>
    rcases nv with ⟨name, pat⟩
    cases h : s.match_exp pat
    · simpa only [acceptAux, h, Bool.false_eq_true, if_false, List.find?_cons] using ih
    · simp only [acceptAux, h, if_true, List.find?_cons]

/-! ### Claims about the Facebook platform -/

/-- Claim C4: `accept` tries each registered pattern in registration
order; at the first pattern that matches it attaches that pattern name
to the stack as its annotation and returns `true`; when no registered
pattern matches it returns `false` and the stack is unchanged.  The
first-match semantics is phrased through `List.find?` over the
registry, together with the success criterion. -/
theorem accept_first_match_c4 (s : Stack) :
    (accept s =
      match PATTERNS.find? (fun nv => s.match_exp nv.2) with
      | some nv => ({ s with annot := some nv.1 }, true)
      | none => (s, false)) ∧
    ((accept s).2 = true ↔ ∃ nv ∈ PATTERNS, s.match_exp nv.2 = true) := by
  have hfind := acceptAux_eq_find s PATTERNS
  refine ⟨hfind, ?_⟩
  have hsnd : (accept s).2 = (PATTERNS.find? (fun nv => s.match_exp nv.2)).isSome := by
    unfold accept
    rw [hfind]
    cases hf : PATTERNS.find? (fun nv => s.match_exp nv.2) <;> rfl
  rw [hsnd]
  constructor
  · intro h
    rcases List.find?_isSome.mp (by rw [h]) with ⟨nv, hmem, hmatch⟩
    exact ⟨nv, hmem, hmatch⟩
  · rintro ⟨nv, hmem, hmatch⟩
    exact List.find?_isSome.mpr ⟨nv, hmem, hmatch⟩

/-- Claim C10: when `accept` returns `false`, the stack is returned
untouched, so in particular its annotation attribute is unchanged: the
attribute is written only on the branch where a registered pattern
matched. -/
theorem accept_no_match_c10 (s : Stack) (h : (accept s).2 = false) :
    (accept s).1.annot = s.annot := by
  have haux : ∀ l : List (String × String),
      (acceptAux s l).2 = false → (acceptAux s l).1 = s := by
    intro l
    induction l with
    | nil => intro _; rfl
    | cons nv rest ih =>
      rcases nv with ⟨name, pat⟩
      cases hm : s.match_exp pat
      · simpa only [acceptAux, hm, Bool.false_eq_true, if_false] using ih
      · simp only [acceptAux, hm, if_true]
        intro hbad
        cases hbad
  rw [show (accept s).1 = s from haux PATTERNS h]

theorem accept_no_match_c10_witness :
    (accept ⟨some "prior", fun _ => false⟩).2 = false ∧
    (accept ⟨some "prior", fun _ => false⟩).1.annot = some "prior" :=
  ⟨rfl, accept_no_match_c10 ⟨some "prior", fun _ => false⟩ rfl⟩

/-- Claim C5: a stack whose annotation is not the name of a registered
pattern and which matches none of the registered patterns makes `send`
raise `UnacceptableStack` without dispatching to any send handler;
conversely a stack whose annotation is a registered pattern name, or
which some registered pattern matches, is dispatched to the handler
keyed (as `_send_` plus the name) by its annotation. -/
theorem send_c5 :
    (∀ s : Stack, annotRegistered s = false →
      (∀ nv ∈ PATTERNS, s.match_exp nv.2 = false) →
      send s = Except.error ⟨"Cannot accept stack"⟩) ∧
    (∀ s : Stack,
      (annotRegistered s = true ∨ ∃ nv ∈ PATTERNS, s.match_exp nv.2 = true) →
      ∃ n s2, send s = Except.ok ("_send_" ++ n, s2) ∧ s2.annot = some n ∧
        annotRegistered s2 = true) := by
  constructor
  · intro s hreg hall
    have hm := hall ("text", "(Text|RawText)+ QuickRepliesList?") (by simp [PATTERNS])
    simp only [send, hreg, Bool.false_eq_true, if_false, accept, PATTERNS, acceptAux,
      hm, Bool.false_eq_true, if_false]
  · intro s hor
    by_cases hreg : annotRegistered s = true
    · rcases hann : s.annot with _ | n
      · rw [annotRegistered, hann] at hreg
        cases hreg
      · refine ⟨n, s, ?_, hann, hreg⟩
        simp only [send, hreg, if_true, hann, Option.getD_some]
    · rcases hor with hor | ⟨nv, hmem, hmatch⟩
      · exact absurd hor hreg
      · have hnv : nv = ("text", "(Text|RawText)+ QuickRepliesList?") := by
          simpa [PATTERNS] using hmem
        rw [hnv] at hmatch
        rw [Bool.not_eq_true] at hreg
        refine ⟨"text", { s with annot := some "text" }, ?_, rfl, rfl⟩
        simp only [send, hreg, Bool.false_eq_true, if_false, accept, PATTERNS, acceptAux,
          hmatch, if_true]
        rfl

theorem send_c5_witness :
    send ⟨none, fun _ => false⟩ = Except.error ⟨"Cannot accept stack"⟩ ∧
    ∃ n s2, send ⟨some "text", fun _ => false⟩ = Except.ok ("_send_" ++ n, s2) ∧
      s2.annot = some n ∧ annotRegistered s2 = true :=
  ⟨send_c5.1 ⟨none, fun _ => false⟩ rfl (fun _ _ => rfl),
   send_c5.2 ⟨some "text", fun _ => false⟩ (Or.inl rfl)⟩

/-! ### Helper lemmas about the raw-text choice ranking -/

lemma choiceStrings_keys (env : Env) (params : ChoiceParams)
    (hi : (params.lookup "intent").isSome = true)
    (ht : (params.lookup "text").isSome = true) :
    choiceStrings env params = Except.ok (candidatesOf env params) := by
  rcases Option.isSome_iff_exists.mp hi with ⟨iv, hiv⟩
  rcases Option.isSome_iff_exists.mp ht with ⟨tv, htv⟩
  simp only [choiceStrings, candidatesOf, hiv, htv]

lemma rank_text_go_spec (env : Env) (q : String) :
    ∀ (l : List (String × ChoiceParams)) (b : ℚ) (sl : Option String),
      (∀ p ∈ l, ((p.2).lookup "intent").isSome = true ∧
        ((p.2).lookup "text").isSome = true) →
      ∃ B SL, rank_text_go env q l b sl = Except.ok (B, SL) ∧
        b ≤ B ∧ (∀ p ∈ l, scoreOf env q p.2 ≤ B) ∧
        ((B = b ∧ SL = sl ∧ ∀ p ∈ l, scoreOf env q p.2 ≤ b) ∨
          (b < B ∧ ∃ l1 p l2, l = l1 ++ p :: l2 ∧ SL = some p.1 ∧
            scoreOf env q p.2 = B ∧ ∀ x ∈ l1, scoreOf env q x.2 < B)) := by
  intro l
  induction l with
  | nil =>
    intro b sl _
    exact ⟨b, sl, rfl, le_refl b, fun p hp => absurd hp (List.not_mem_nil p),
      Or.inl ⟨rfl, rfl, fun p hp => absurd hp (List.not_mem_nil p)⟩⟩
  | cons hd rest ih =>
    rcases hd with ⟨slug2, params⟩
    intro b sl hkeys
    have hhd := hkeys (slug2, params) (List.mem_cons_self _ _)
    have hcs := choiceStrings_keys env params hhd.1 hhd.2
    have hscore : matcherScore ((candidatesOf env params).map Trigram)
        (Trigram (env.render q)) = scoreOf env q params := by
      rw [matcherScore_eq_best_match]
      rfl
    have hkeys2 : ∀ p ∈ rest, ((p.2).lookup "intent").isSome = true ∧
        ((p.2).lookup "text").isSome = true :=
      fun p hp => hkeys p (List.mem_cons_of_mem _ hp)
    by_cases hlt : b < matcherScore ((candidatesOf env params).map Trigram)
        (Trigram (env.render q))
    · rcases ih (matcherScore ((candidatesOf env params).map Trigram)
        (Trigram (env.render q))) (some slug2) hkeys2 with ⟨B, SL, heq, hle, hub, hdisj⟩
      have hbB : b < B := lt_of_lt_of_le hlt hle
      refine ⟨B, SL, ?_, le_of_lt hbB, ?_, ?_⟩
      · simp only [rank_text_go, hcs, hlt, if_true]
        exact heq
      · intro p hp
        rcases List.mem_cons.mp hp with h | h
        · rw [h]
          rw [← hscore]
          exact hle
        · exact hub p h
      · rcases hdisj with ⟨hB, hSL, _⟩ | ⟨hltB, l1, p, l2, hl, hSL, hatt, hfirst⟩
        · refine Or.inr ⟨hbB, [], (slug2, params), rest, rfl, hSL, ?_, ?_⟩
          · exact (hB.trans hscore).symm
          · intro x hx
            exact absurd hx (List.not_mem_nil x)
        · refine Or.inr ⟨hbB, (slug2, params) :: l1, p, l2, by rw [hl]; rfl, hSL, hatt, ?_⟩
          intro x hx
          rcases List.mem_cons.mp hx with h | h
          · rw [h]
            rw [← hscore]
            exact hltB
          · exact hfirst x h
    · have hsb : matcherScore ((candidatesOf env params).map Trigram)
          (Trigram (env.render q)) ≤ b := le_of_not_lt hlt
      rcases ih b sl hkeys2 with ⟨B, SL, heq, hle, hub, hdisj⟩
      refine ⟨B, SL, ?_, hle, ?_, ?_⟩
      · simp only [rank_text_go, hcs, hlt, if_false]
        exact heq
      · intro p hp
        rcases List.mem_cons.mp hp with h | h
        · rw [h]
          rw [← hscore]
          exact le_trans hsb hle
        · exact hub p h
      · rcases hdisj with ⟨hB, hSL, hall⟩ | ⟨hltB, l1, p, l2, hl, hSL, hatt, hfirst⟩
        · refine Or.inl ⟨hB, hSL, ?_⟩
          intro p hp
          rcases List.mem_cons.mp hp with h | h
          · rw [h]
            rw [← hscore]
            exact hsb
          · exact hall p h
        · refine Or.inr ⟨hltB, (slug2, params) :: l1, p, l2, by rw [hl]; rfl, hSL, hatt, ?_⟩
          intro x hx
          rcases List.mem_cons.mp hx with h | h
          · rw [h]
            rw [← hscore]
            exact lt_of_le_of_lt hsb hltB
          · exact hfirst x h

lemma rank_text_go_err (env : Env) (q : String) :
    ∀ (l : List (String × ChoiceParams)) (b : ℚ) (sl : Option String),
      (∃ p ∈ l, (p.2).lookup "intent" = none ∨ (p.2).lookup "text" = none) →
      ∃ e, rank_text_go env q l b sl = Except.error e := by
  intro l
  induction l with
  | nil =>
    rintro b sl ⟨p, hp, _⟩
    exact absurd hp (List.not_mem_nil p)
  | cons hd rest ih =>
    rcases hd with ⟨slug2, params⟩
    rintro b sl ⟨p, hp, hmiss⟩
    rcases List.mem_cons.mp hp with h | h
    · subst h
      rcases hmiss with hi | ht2
      · exact ⟨"KeyError: intent", by simp only [rank_text_go, choiceStrings, hi]⟩
      · cases hiv : params.lookup "intent" with
        | none => exact ⟨"KeyError: intent", by simp only [rank_text_go, choiceStrings, hiv]⟩
        | some iv =>
          exact ⟨"KeyError: text", by simp only [rank_text_go, choiceStrings, hiv, ht2]⟩
    · cases hiv : params.lookup "intent" with
      | none => exact ⟨"KeyError: intent", by simp only [rank_text_go, choiceStrings, hiv]⟩
      | some iv =>
        cases htv : params.lookup "text" with
        | none => exact ⟨"KeyError: text", by simp only [rank_text_go, choiceStrings, hiv, htv]⟩
        | some tv =>
          have hcs : choiceStrings env params =
              Except.ok ((if truthy iv then env.intentStrings (iv.getD "") else []) ++
                (if truthy tv then [tv.getD ""] else [])) := by
            simp only [choiceStrings, hiv, htv]
          by_cases hlt : b < matcherScore
              (((if truthy iv then env.intentStrings (iv.getD "") else []) ++
                (if truthy tv then [tv.getD ""] else [])).map Trigram)
              (Trigram (env.render q))
          · rcases ih _ (some slug2) ⟨p, h, hmiss⟩ with ⟨e, he⟩
            refine ⟨e, ?_⟩
            simp only [rank_text_go, hcs, hlt, if_true]
            exact he
          · rcases ih b sl ⟨p, h, hmiss⟩ with ⟨e, he⟩
            refine ⟨e, ?_⟩
            simp only [rank_text_go, hcs, hlt, if_false]
            exact he

/-- Claim C2: on a request with a raw-text token, no quick-reply
token, and a non-empty pending-choices mapping whose records all carry
both metadata keys, `Choice.rank` scores each choice by `best_match`
of the rendered raw text against the candidate list of that choice
(its intent strings plus its literal text when present), keeps the
winning choice, and returns that highest score when `when` is unset or
equal to the winning slug, and `NoOpinion` otherwise.  The winner is
pinned down completely: when the highest score is positive the winner
is exactly the first choice in mapping order attaining it (everything
before it scores strictly lower), and when every choice scores `0` no
winner is staged (the loop updates only on strict improvement), so the
returned value is fully determined by the scores and `when`. -/
theorem choice_rank_text_c2 (env : Env) (req : Request) (when : Option String)
    (choices : List (String × ChoiceParams)) (t : String)
    (hqr : req.quickReply = none) (ht : req.rawText = some t)
    (hc : req.transChoices = some choices) (hne : choices ≠ [])
    (hkeys : ∀ p ∈ choices, ((p.2).lookup "intent").isSome = true ∧
      ((p.2).lookup "text").isSome = true) :
    ∃ (best : ℚ) (winner : Option String),
      Choice.rank env req when =
        Except.ok (if when = none ∨ winner = when then some best else none) ∧
      (∀ p ∈ choices, best_match (env.render t) (candidatesOf env p.2) ≤ best) ∧
      (∃ p ∈ choices, best_match (env.render t) (candidatesOf env p.2) = best) ∧
      ((best = 0 ∧ winner = none) ∨
        (0 < best ∧ ∃ l1 p l2, choices = l1 ++ p :: l2 ∧ winner = some p.1 ∧
          best_match (env.render t) (candidatesOf env p.2) = best ∧
          ∀ x ∈ l1, best_match (env.render t) (candidatesOf env x.2) < best)) := by
  have hEmpty : choices.isEmpty = false := by
    simp [List.isEmpty_iff, hne]
  rcases rank_text_go_spec env t choices 0 none hkeys with ⟨B, SL, heq, _, hub, hdisj⟩
  refine ⟨B, SL, ?_, hub, ?_, ?_⟩
  · simp only [Choice.rank, hc, hEmpty, hqr, ht, Option.isSome_some, Option.isSome_none,
      Bool.false_eq_true, if_false, if_true, rank_text, heq]
    split_ifs <;> rfl
  · rcases hdisj with ⟨hB, _, _⟩ | ⟨_, l1, p, l2, hl, _, hatt, _⟩
    · rcases List.exists_cons_of_ne_nil hne with ⟨p0, rest, hl⟩
      have hmem : p0 ∈ choices := by rw [hl]; exact List.mem_cons_self _ _
      have h1 : scoreOf env t p0.2 ≤ B := hub p0 hmem
      have h2 : B ≤ scoreOf env t p0.2 := by
        rw [hB]
        exact best_match_nonneg _ _
      exact ⟨p0, hmem, le_antisymm h1 h2⟩
    · refine ⟨p, ?_, hatt⟩
      rw [hl]
      exact List.mem_append_right _ (List.mem_cons_self _ _)
  · rcases hdisj with ⟨hB, hSL, _⟩ | ⟨h0B, l1, p, l2, hl, hSL, hatt, hfirst⟩
    · exact Or.inl ⟨hB, hSL⟩
    · exact Or.inr ⟨h0B, l1, p, l2, hl, hSL, hatt, hfirst⟩

theorem choice_rank_text_c2_witness :
    (∃ (best : ℚ) (winner : Option String),
      Choice.rank ⟨fun _ => [], fun s => s⟩
          ⟨some "yess", none, some [("yes", [("intent", none), ("text", some "yes")]),
            ("no", [("intent", none), ("text", some "no")])]⟩ (some "yes") =
        Except.ok (if some "yes" = (none : Option String) ∨ winner = some "yes"
          then some best else none) ∧
      (∀ p ∈ [("yes", [("intent", none), ("text", some "yes")]),
          ("no", [("intent", none), ("text", some "no")])],
        best_match "yess" (candidatesOf ⟨fun _ => [], fun s => s⟩ p.2) ≤ best) ∧
      (∃ p ∈ [("yes", [("intent", none), ("text", some "yes")]),
          ("no", [("intent", none), ("text", some "no")])],
        best_match "yess" (candidatesOf ⟨fun _ => [], fun s => s⟩ p.2) = best) ∧
      ((best = 0 ∧ winner = none) ∨
        (0 < best ∧ ∃ l1 p l2,
          [("yes", [("intent", none), ("text", some "yes")]),
            ("no", [("intent", none), ("text", some "no")])] = l1 ++ p :: l2 ∧
          winner = some p.1 ∧
          best_match "yess" (candidatesOf ⟨fun _ => [], fun s => s⟩ p.2) = best ∧
          ∀ x ∈ l1,
            best_match "yess" (candidatesOf ⟨fun _ => [], fun s => s⟩ x.2) < best))) ∧
    (∃ (best : ℚ) (winner : Option String),
      Choice.rank ⟨fun _ => [], fun s => s⟩
          ⟨some "yess", none, some [("yes", [("intent", none), ("text", some "yes")]),
            ("no", [("intent", none), ("text", some "no")])]⟩ none =
        Except.ok (if (none : Option String) = none ∨ winner = none
          then some best else none) ∧
      (∀ p ∈ [("yes", [("intent", none), ("text", some "yes")]),
          ("no", [("intent", none), ("text", some "no")])],
        best_match "yess" (candidatesOf ⟨fun _ => [], fun s => s⟩ p.2) ≤ best) ∧
      (∃ p ∈ [("yes", [("intent", none), ("text", some "yes")]),
          ("no", [("intent", none), ("text", some "no")])],
        best_match "yess" (candidatesOf ⟨fun _ => [], fun s => s⟩ p.2) = best) ∧
      ((best = 0 ∧ winner = none) ∨
        (0 < best ∧ ∃ l1 p l2,
          [("yes", [("intent", none), ("text", some "yes")]),
            ("no", [("intent", none), ("text", some "no")])] = l1 ++ p :: l2 ∧
          winner = some p.1 ∧
          best_match "yess" (candidatesOf ⟨fun _ => [], fun s => s⟩ p.2) = best ∧
          ∀ x ∈ l1,
            best_match "yess" (candidatesOf ⟨fun _ => [], fun s => s⟩ x.2) < best))) :=
  ⟨choice_rank_text_c2 ⟨fun _ => [], fun s => s⟩
    ⟨some "yess", none, some [("yes", [("intent", none), ("text", some "yes")]),
      ("no", [("intent", none), ("text", some "no")])]⟩ (some "yes")
    [("yes", [("intent", none), ("text", some "yes")]),
      ("no", [("intent", none), ("text", some "no")])] "yess"
    rfl rfl rfl (by decide) (by decide),
   choice_rank_text_c2 ⟨fun _ => [], fun s => s⟩
    ⟨some "yess", none, some [("yes", [("intent", none), ("text", some "yes")]),
      ("no", [("intent", none), ("text", some "no")])]⟩ none
    [("yes", [("intent", none), ("text", some "yes")]),
      ("no", [("intent", none), ("text", some "no")])] "yess"
    rfl rfl rfl (by decide) (by decide)⟩

/-- Claim C9: on the raw-text branch (no quick-reply token, a raw-text
token, a non-empty choices mapping), `Choice.rank` is total exactly
under the precondition that every choice record carries both an
"intent" and a "text" key: with both keys everywhere it returns a
result, while a record missing either key makes ranking raise an
uncaught `KeyError` instead of returning a score or `NoOpinion`. -/
theorem choice_rank_keys_c9 (env : Env) (req : Request) (when : Option String)
    (choices : List (String × ChoiceParams)) (t : String)
    (hqr : req.quickReply = none) (ht : req.rawText = some t)
    (hc : req.transChoices = some choices) (hne : choices ≠ []) :
    ((∀ p ∈ choices, ((p.2).lookup "intent").isSome = true ∧
        ((p.2).lookup "text").isSome = true) →
      ∃ r, Choice.rank env req when = Except.ok r) ∧
    ((∃ p ∈ choices, (p.2).lookup "intent" = none ∨ (p.2).lookup "text" = none) →
      ∃ e, Choice.rank env req when = Except.error e) := by
  have hEmpty : choices.isEmpty = false := by
    simp [List.isEmpty_iff, hne]
  constructor
  · intro hkeys
    rcases rank_text_go_spec env t choices 0 none hkeys with ⟨B, SL, heq, _, _, _⟩
    refine ⟨if when = none ∨ SL = when then some B else none, ?_⟩
    simp only [Choice.rank, hc, hEmpty, hqr, ht, Option.isSome_some, Option.isSome_none,
      Bool.false_eq_true, if_false, if_true, rank_text, heq]
    split_ifs <;> rfl
  · intro hmiss
    rcases rank_text_go_err env t choices 0 none hmiss with ⟨e, he⟩
    refine ⟨e, ?_⟩
    simp only [Choice.rank, hc, hEmpty, hqr, ht, Option.isSome_some, Option.isSome_none,
      Bool.false_eq_true, if_false, if_true, rank_text, he]

theorem choice_rank_keys_c9_witness :
    (∃ r, Choice.rank ⟨fun _ => [], fun s => s⟩
        ⟨some "hi", none, some [("a", [("intent", none), ("text", none)])]⟩ none =
        Except.ok r) ∧
    (∃ e, Choice.rank ⟨fun _ => [], fun s => s⟩
        ⟨some "hi", none, some [("a", [])]⟩ none = Except.error e) :=
  ⟨(choice_rank_keys_c9 ⟨fun _ => [], fun s => s⟩
      ⟨some "hi", none, some [("a", [("intent", none), ("text", none)])]⟩ none
      [("a", [("intent", none), ("text", none)])] "hi"
      rfl rfl rfl (by decide)).1 (by decide),
   (choice_rank_keys_c9 ⟨fun _ => [], fun s => s⟩
      ⟨some "hi", none, some [("a", [])]⟩ none
      [("a", [])] "hi"
      rfl rfl rfl (by decide)).2 (by decide)⟩

end Bernard
